import Mathlib

/-!
Verification of the adaptive batch-processing and memory-pressure recovery
pipeline of the colpali embedding service
(`src/morphik-external/scripts/colpali_modal_app.py`).

The endpoint `generate_embeddings_endpoint` is embedded shallowly as a pure
state-passing interpreter.  External collaborators (the model/processor pair,
`base64.b64decode`, `PIL.Image.open`) are parameters of an `Env`:

* `Env.oracle n` gives the outcome of the `n`-th model forward call
  (`self.model(**processed)`): success, a CUDA out-of-memory `RuntimeError`,
  or any other runtime exception;
* `Env.emb it` is the embedding row the model produces for input item `it`
  on success (the model is order-preserving and 1:1 per item);
* `Env.b64ok` / `Env.imgOk` say whether `base64.b64decode` respectively
  `PIL.Image.open` succeed on a given payload string.

Every device interaction and every `_clear_gpu_memory` call is recorded in an
event trace, so that the temporal claims (which reclaim happens when) are
statable as facts about the trace of a run.
-/

namespace Colpali

/-- A request input item.  The JSON body may carry non-string members in
`inputs`; only their string-ness matters to the code (`isinstance(text, str)`
at line 152), so non-strings are collapsed into one constructor. -/
inductive Item where
  | str (s : String)
  | nonStr
deriving DecidableEq

/-- `isinstance(item, str)`. -/
def Item.isString : Item → Bool
  | .str _ => true
  | .nonStr => false

/-- Outcome of one model forward call `self.model(**processed)`:
success, a `RuntimeError` whose text contains "out of memory", or any other
runtime exception. -/
inductive MOutcome where
  | ok
  | oom
  | err
deriving DecidableEq

/-- Python exceptions that steer control flow in the endpoint. -/
inductive PyErr where
  | valueError (msg : String)  -- `ValueError`, caught at line 206
  | runtimeOOM                 -- CUDA OOM `RuntimeError` re-raised at line 202
  | runtimeOther               -- other `RuntimeError`, re-raised at line 204
  | otherExc                   -- any other exception (e.g. `AttributeError`)
deriving DecidableEq

/-- Observable events of a run, in order:
`procCall` = a processor call moved to the device
  (`process_images(...).to(device)` / `process_queries(...).to(device)`),
`modelCall` = a model forward pass (`self.model(**processed)`),
`reclaim` = one invocation of `_clear_gpu_memory`
  (`torch.cuda.empty_cache()` plus `gc.collect()`, lines 112-117). -/
inductive Event where
  | procCall
  | modelCall
  | reclaim
deriving DecidableEq

/-- The external collaborators of the endpoint (see module doc). -/
structure Env (V : Type) where
  emb : Item → V
  b64ok : String → Bool
  imgOk : String → Bool
  oracle : Nat → MOutcome

/-- Python `s.startswith("data:")`, over the character sequence. -/
def startsWithData (s : String) : Bool :=
  s.data.take 5 == "data:".data

/-- Python `"," in s`, over the character sequence. -/
def hasComma (s : String) : Bool :=
  s.data.contains ','

/-- Python `s.split(",", 1)[1]`: everything after the first comma. -/
def afterFirstComma (s : String) : String :=
  String.mk ((s.data.dropWhile (fun c => c != ',')).tail)

/-- `_decode_image` (lines 98-110).  On a data URI the payload is everything
after the first comma; a data URI without a comma raises `IndexError`, caught
and re-raised as `ValueError` (line 105).  `base64.b64decode` and
`PIL.Image.open` failures are both caught at line 109 and re-raised as
`ValueError` (the interpolated text of the underlying exception is abstracted
to a fixed string per failure mode).  Calling it on a non-string raises
`AttributeError` (no `startswith` method), which is not a `ValueError`.
The decoded image object itself is opaque (consumed only by the opaque
processor), hence the `Unit` payload. -/
def _decode_image {V : Type} (env : Env V) : Item → Except PyErr Unit
  | Item.nonStr => .error .otherExc
  | Item.str s =>
    let body : Except PyErr String :=
      if startsWithData s then
        if hasComma s then .ok (afterFirstComma s)
        else .error (.valueError "Malformed data URI string for image decoding.")
      else .ok s
    match body with
    | .error e => .error e
    | .ok payload =>
      if env.b64ok payload then
        if env.imgOk payload then .ok ()
        else .error (.valueError "Failed to decode base64 image: cannot identify image file")
      else .error (.valueError "Failed to decode base64 image: invalid base64")

/-- The list comprehension
`[self._decode_image(b64_str) for b64_str in batch_input_data]` (line 148):
items are decoded left to right and the first exception propagates. -/
def decodeList {V : Type} (env : Env V) : List Item → Except PyErr Unit
  | [] => .ok ()
  | x :: xs =>
    match _decode_image env x with
    | .error e => .error e
    | .ok _ => decodeList env xs

/-- Mutable state of one request: `all_embeddings_list`, the number of model
forward calls made so far (the oracle index), and the event trace. -/
structure St (V : Type) where
  acc : List V
  calls : Nat
  trace : List Event
deriving DecidableEq

/-- The item-by-item fallback loop (lines 181-200).  Every exception inside
the loop body is caught by `except Exception` at line 198 and the item is
skipped (`continue`).  `_clear_gpu_memory` (line 196) runs only when the
attempt reached the end of the `try` block, i.e. only after a successful
attempt. -/
def fallbackLoop {V : Type} (env : Env V) (input_type : String) :
    List Item → St V → St V
  | [], st => st
  | x :: xs, st =>
    match (if input_type = "image" then _decode_image env x else .ok ()) with
    | .error _ => fallbackLoop env input_type xs st
    | .ok _ =>
      let st1 : St V :=
        { st with trace := st.trace ++ [.procCall, .modelCall], calls := st.calls + 1 }
      match env.oracle st.calls with
      | .ok =>
        fallbackLoop env input_type xs
          { st1 with acc := st1.acc ++ [env.emb x], trace := st1.trace ++ [.reclaim] }
      | _ => fallbackLoop env input_type xs st1

/-- Result of processing one batch: continue the loop with a new state, an
early `return JSONResponse(...)` (the two 400 validation returns), or an
exception propagating to the handlers at lines 206-212. -/
inductive StepRes (V : Type) where
  | next (st : St V)
  | ret (status : Nat) (msg : String) (st : St V)
  | exc (e : PyErr) (st : St V)

/-- The inner `try` around the model forward (lines 159-204).  On success the
batch's rows are appended and `_clear_gpu_memory` runs (line 168).  On a CUDA
OOM `RuntimeError`, `_clear_gpu_memory` runs (line 177); then a batch of more
than one item degrades to the item-by-item fallback, while a single-item
batch re-raises (line 202).  Any other `RuntimeError` is re-raised
(line 204). -/
def runInference {V : Type} (env : Env V) (input_type : String)
    (batch : List Item) (st : St V) : StepRes V :=
  let st1 : St V := { st with trace := st.trace ++ [.modelCall], calls := st.calls + 1 }
  match env.oracle st.calls with
  | .ok =>
    .next { st1 with acc := st1.acc ++ batch.map env.emb, trace := st1.trace ++ [.reclaim] }
  | .oom =>
    let st2 : St V := { st1 with trace := st1.trace ++ [.reclaim] }
    if 1 < batch.length then .next (fallbackLoop env input_type batch st2)
    else .exc .runtimeOOM st2
  | .err => .exc .runtimeOther st1

/-- One iteration of the batch loop (lines 147-204): decode (image) or
validate (text) the batch, call the processor, then run inference.  An
unrecognized `input_type` returns the 400 response of line 156. -/
def processBatch {V : Type} (env : Env V) (input_type : String)
    (batch : List Item) (st : St V) : StepRes V :=
  if input_type = "image" then
    match decodeList env batch with
    | .error e => .exc e st
    | .ok _ =>
      if batch = [] then .next st
      else runInference env input_type batch { st with trace := st.trace ++ [.procCall] }
  else if input_type = "text" then
    if batch.all Item.isString then
      runInference env input_type batch { st with trace := st.trace ++ [.procCall] }
    else .ret 400 "Invalid text inputs, not all are strings" st
  else .ret 400 "Invalid input_type" st

/-- Result of the whole batch loop. -/
inductive LoopRes (V : Type) where
  | done (st : St V)
  | ret (status : Nat) (msg : String) (st : St V)
  | exc (e : PyErr) (st : St V)

/-- The `for i in range(0, len(inputs_data), batch_size)` loop, one
`processBatch` per window. -/
def loop {V : Type} (env : Env V) (input_type : String) :
    List (List Item) → St V → LoopRes V
  | [], st => .done st
  | b :: bs, st =>
    match processBatch env input_type b st with
    | .next st' => loop env input_type bs st'
    | .ret c m st' => .ret c m st'
    | .exc e st' => .exc e st'

/-- `batch_size = 4 if input_type == "text" else 1` (line 138). -/
def batch_size (input_type : String) : Nat :=
  if input_type = "text" then 4 else 1

/-- Fuelled worker for `chunks` (the fuel makes the recursion structural; it
is always called with fuel = length, which is sufficient). -/
def chunksF (bs : Nat) : Nat → List Item → List (List Item)
  | _, [] => []
  | 0, _ :: _ => []
  | f + 1, x :: xs => (x :: xs).take bs :: chunksF bs f (xs.drop (bs - 1))

/-- The batch planner: `inputs_data[i:i + batch_size]` for
`i in range(0, len(inputs_data), batch_size)` (lines 141-142) — contiguous
windows of `bs` items (the last possibly shorter). -/
def chunks (bs : Nat) (l : List Item) : List (List Item) :=
  chunksF bs l.length l

/-- HTTP-level result of the endpoint: either the success JSON
`{"embeddings": [...]}` or a `JSONResponse` with an error status. -/
inductive Response (V : Type) where
  | success (embeddings : List V)
  | error (status : Nat) (msg : String)
deriving DecidableEq

/-- `generate_embeddings_endpoint` (lines 120-217), paired with the event
trace of the run.  Empty `inputs` short-circuits (lines 126-127).  The outer
handlers: `ValueError` becomes a 400 without any cleanup (lines 206-208);
any other exception triggers `_clear_gpu_memory` and becomes a 500
(lines 209-212).  On normal completion a final `_clear_gpu_memory` runs
(line 215) before the success response. -/
def generate_embeddings_endpoint {V : Type} (env : Env V)
    (input_type : String) (inputs : List Item) : Response V × List Event :=
  if inputs = [] then (.success [], [])
  else
    match loop env input_type (chunks (batch_size input_type) inputs)
        { acc := [], calls := 0, trace := [] } with
    | .done st => (.success st.acc, st.trace ++ [.reclaim])
    | .ret c m st => (.error c m, st.trace)
    | .exc (.valueError m) st =>
        (.error 400 ("Input processing error: " ++ m), st.trace)
    | .exc .runtimeOOM st =>
        (.error 500 "Internal server error during embedding", st.trace ++ [.reclaim])
    | .exc .runtimeOther st =>
        (.error 500 "Internal server error during embedding", st.trace ++ [.reclaim])
    | .exc .otherExc st =>
        (.error 500 "Internal server error during embedding", st.trace ++ [.reclaim])

/-- Expected output of the item-by-item fallback on a text batch, as a
specification artifact: the embedding rows of exactly those items whose
singleton model call (consuming consecutive oracle indices from `c`)
succeeds, in the batch's original order. -/
def textSurvivors {V : Type} (env : Env V) (c : Nat) : List Item → List V
  | [] => []
  | x :: xs =>
    match env.oracle c with
    | .ok => env.emb x :: textSurvivors env (c + 1) xs
    | _ => textSurvivors env (c + 1) xs

/-- Expected trace of the item-by-item fallback on a text batch: every item
gets a processor call and a model call, but a reclaim follows only a
successful attempt. -/
def fallbackTextTrace {V : Type} (env : Env V) (c : Nat) : List Item → List Event
  | [] => []
  | _ :: xs =>
    (Event.procCall :: Event.modelCall ::
      (match env.oracle c with | .ok => [Event.reclaim] | _ => [])) ++
    fallbackTextTrace env (c + 1) xs

/-! ### Concrete environments for witnesses and counterexamples -/

/-- A concrete embedding: the length of the item's string. -/
def embN : Item → Nat
  | .str s => s.length
  | .nonStr => 0

/-- Oracle scripted by a finite list of outcomes (later calls succeed). -/
def oracleOf (l : List MOutcome) : Nat → MOutcome :=
  fun n => l.getD n .ok

/-- A benign device: every model call succeeds, every decode succeeds. -/
def envOK : Env Nat :=
  { emb := embN, b64ok := fun _ => true, imgOk := fun _ => true,
    oracle := fun _ => .ok }

/-- Device that OOMs on the first batch call and on the first singleton
fallback attempt, then succeeds. -/
def envOOM2 : Env Nat :=
  { emb := embN, b64ok := fun _ => true, imgOk := fun _ => true,
    oracle := oracleOf [.oom, .oom, .ok] }

/-- Device that OOMs on every model call. -/
def envOOMall : Env Nat :=
  { emb := embN, b64ok := fun _ => true, imgOk := fun _ => true,
    oracle := fun _ => .oom }

example :
    generate_embeddings_endpoint envOK "text" [Item.str "a", Item.str "bb"] =
      (.success [1, 2],
       [.procCall, .modelCall, .reclaim, .reclaim]) := by decide

example :
    generate_embeddings_endpoint envOOM2 "text" [Item.str "a", Item.str "bb"] =
      (.success [2],
       [.procCall, .modelCall, .reclaim, .procCall, .modelCall,
        .procCall, .modelCall, .reclaim, .reclaim]) := by decide

example :
    generate_embeddings_endpoint envOK "image" [Item.str "data:x,y", Item.str "z"] =
      (.success [8, 1],
       [.procCall, .modelCall, .reclaim, .procCall, .modelCall, .reclaim,
        .reclaim]) := by decide

example :
    generate_embeddings_endpoint envOK "image" [Item.str "ok", Item.str "data:nocomma"] =
      (.error 400 "Input processing error: Malformed data URI string for image decoding.",
       [.procCall, .modelCall, .reclaim]) := by decide

/-! ### Properties of the batch planner -/

theorem chunksF_fuel (bs : Nat) :
    ∀ (f : Nat) (l : List Item), l.length ≤ f →
      chunksF bs f l = chunksF bs l.length l := by
  intro f
  induction f using Nat.strong_induction_on with
  | _ f ih =>
    intro l hl
    cases l with
    | nil => cases f <;> rfl
    | cons x xs =>
      cases f with
      | zero => simp at hl
      | succ f =>
        have hxs : xs.length ≤ f := by
          simp only [List.length_cons] at hl; omega
        have hdl : (xs.drop (bs - 1)).length ≤ xs.length := by
          rw [List.length_drop]; omega
        calc chunksF bs (f + 1) (x :: xs)
            = (x :: xs).take bs :: chunksF bs f (xs.drop (bs - 1)) := rfl
          _ = (x :: xs).take bs ::
                chunksF bs (xs.drop (bs - 1)).length (xs.drop (bs - 1)) := by
              rw [ih f (Nat.lt_succ_self f) _ (le_trans hdl hxs)]
          _ = (x :: xs).take bs :: chunksF bs xs.length (xs.drop (bs - 1)) := by
              rw [← ih xs.length (Nat.lt_succ_of_le hxs) _ hdl]
          _ = chunksF bs (x :: xs).length (x :: xs) := rfl

theorem chunks_nil (bs : Nat) : chunks bs ([] : List Item) = [] := rfl

theorem chunks_cons (bs : Nat) (x : Item) (xs : List Item) :
    chunks bs (x :: xs) = (x :: xs).take bs :: chunks bs (xs.drop (bs - 1)) := by
  show chunksF bs (x :: xs).length (x :: xs) = _
  calc chunksF bs (xs.length + 1) (x :: xs)
      = (x :: xs).take bs :: chunksF bs xs.length (xs.drop (bs - 1)) := rfl
    _ = (x :: xs).take bs :: chunks bs (xs.drop (bs - 1)) := by
        rw [chunksF_fuel bs xs.length _ (by rw [List.length_drop]; omega)]
        rfl

/-- The planned windows concatenate back to the input list: they partition it
exactly, in order, with no gaps and no overlaps. -/
theorem chunks_flatten (bs : Nat) (hbs : 0 < bs) (l : List Item) :
    (chunks bs l).flatten = l := by
  suffices h : ∀ (n : Nat) (l : List Item), l.length = n → (chunks bs l).flatten = l from
    h l.length l rfl
  intro n
  induction n using Nat.strong_induction_on with
  | _ n ih =>
    intro l hn
    cases l with
    | nil => rfl
    | cons x xs =>
      obtain ⟨k, rfl⟩ : ∃ k, bs = k + 1 := ⟨bs - 1, by omega⟩
      rw [chunks_cons, List.flatten_cons,
        ih (xs.drop (k + 1 - 1)).length
          (by subst hn; rw [List.length_drop]; simp only [List.length_cons]; omega)
          _ rfl]
      simp only [List.take_succ_cons, Nat.add_sub_cancel, List.cons_append,
        List.take_append_drop]

/-- Every planned window has at most `bs` items. -/
theorem chunks_length_le (bs : Nat) (l : List Item) :
    (chunks bs l).all (fun b => decide (b.length ≤ bs)) = true := by
  suffices h : ∀ (n : Nat) (l : List Item), l.length = n →
      (chunks bs l).all (fun b => decide (b.length ≤ bs)) = true from
    h l.length l rfl
  intro n
  induction n using Nat.strong_induction_on with
  | _ n ih =>
    intro l hn
    cases l with
    | nil => rfl
    | cons x xs =>
      rw [chunks_cons, List.all_cons, Bool.and_eq_true]
      refine ⟨by simp [List.length_take], ?_⟩
      exact ih (xs.drop (bs - 1)).length
        (by subst hn; rw [List.length_drop]; simp only [List.length_cons]; omega)
        _ rfl

/-- With window size 1 the plan is one singleton batch per item. -/
theorem chunks_one (l : List Item) : chunks 1 l = l.map (fun x => [x]) := by
  induction l with
  | nil => rfl
  | cons x xs ih =>
    rw [chunks_cons]
    simp [ih]

/-- A nonempty input that fits in one window is planned as a single batch. -/
theorem chunks_eq_single (bs : Nat) (l : List Item) (hne : l ≠ [])
    (hle : l.length ≤ bs) : chunks bs l = [l] := by
  cases l with
  | nil => exact absurd rfl hne
  | cons x xs =>
    rw [chunks_cons, List.take_of_length_le hle,
      List.drop_eq_nil_of_le
        (by simp only [List.length_cons] at hle; omega), chunks_nil]

/-- Claim C6: the planned batches are contiguous windows of at most 4 items
for text and exactly 1 item for image; they partition the input list exactly
(concatenation equals the input, no gaps, no overlaps) preserving original
order; and a 5-item text request plans exactly the two batches
`["a","b","c","d"]` and `["e"]`. -/
theorem c6_batch_planning (inputs : List Item) :
    batch_size "text" = 4 ∧ batch_size "image" = 1
    ∧ (chunks (batch_size "text") inputs).flatten = inputs
    ∧ (chunks (batch_size "image") inputs).flatten = inputs
    ∧ (chunks (batch_size "text") inputs).all (fun b => decide (b.length ≤ 4)) = true
    ∧ chunks (batch_size "image") inputs = inputs.map (fun x => [x])
    ∧ chunks (batch_size "text")
        [Item.str "a", Item.str "b", Item.str "c", Item.str "d", Item.str "e"]
        = [[Item.str "a", Item.str "b", Item.str "c", Item.str "d"], [Item.str "e"]] :=
  ⟨rfl, rfl,
   chunks_flatten 4 (by omega) inputs,
   chunks_flatten 1 (by omega) inputs,
   chunks_length_le 4 inputs,
   chunks_one inputs,
   by decide⟩

/-! ### Small-step lemmas about the batch loop -/

theorem loop_cons_of_next {V : Type} (env : Env V) (ty : String) (b : List Item)
    (bs : List (List Item)) (st st₁ : St V)
    (h : processBatch env ty b st = .next st₁) :
    loop env ty (b :: bs) st = loop env ty bs st₁ := by
  simp only [loop, h]

theorem loop_cons_of_ret {V : Type} (env : Env V) (ty : String) (b : List Item)
    (bs : List (List Item)) (st st₁ : St V) (c : Nat) (m : String)
    (h : processBatch env ty b st = .ret c m st₁) :
    loop env ty (b :: bs) st = .ret c m st₁ := by
  simp only [loop, h]

theorem loop_cons_of_exc {V : Type} (env : Env V) (ty : String) (b : List Item)
    (bs : List (List Item)) (st st₁ : St V) (e : PyErr)
    (h : processBatch env ty b st = .exc e st₁) :
    loop env ty (b :: bs) st = .exc e st₁ := by
  simp only [loop, h]

/-! ### The text path -/

/-- The item-by-item fallback on a text batch: every item gets exactly one
singleton model call at consecutive oracle indices; the rows of successful
attempts are appended in order, failed attempts are skipped, and a reclaim
follows only a successful attempt. -/
theorem fallbackLoop_text {V : Type} (env : Env V) (items : List Item) :
    ∀ st : St V, fallbackLoop env "text" items st =
      { acc := st.acc ++ textSurvivors env st.calls items,
        calls := st.calls + items.length,
        trace := st.trace ++ fallbackTextTrace env st.calls items } := by
  induction items with
  | nil =>
    intro st
    simp [fallbackLoop, textSurvivors, fallbackTextTrace]
  | cons x xs ih =>
    intro st
    simp only [fallbackLoop, if_neg (by decide : ¬ ("text" : String) = "image")]
    cases h : env.oracle st.calls with
    | ok =>
      simp [ih, textSurvivors, fallbackTextTrace, h, List.append_assoc,
        Nat.add_assoc, Nat.add_comm, Nat.add_left_comm]
    | oom =>
      simp [ih, textSurvivors, fallbackTextTrace, h, List.append_assoc,
        Nat.add_assoc, Nat.add_comm, Nat.add_left_comm]
    | err =>
      simp [ih, textSurvivors, fallbackTextTrace, h, List.append_assoc,
        Nat.add_assoc, Nat.add_comm, Nat.add_left_comm]

/-- A text batch of valid strings whose model call succeeds: rows appended,
one reclaim after the batch. -/
theorem processBatch_text_ok {V : Type} (env : Env V) (b : List Item) (st : St V)
    (hstr : b.all Item.isString = true) (hok : env.oracle st.calls = .ok) :
    processBatch env "text" b st =
      .next { acc := st.acc ++ b.map env.emb, calls := st.calls + 1,
              trace := st.trace ++ [.procCall, .modelCall, .reclaim] } := by
  simp [processBatch, runInference, hstr, hok]

/-- A text batch containing a non-string item: the 400 return of line 153. -/
theorem processBatch_text_bad {V : Type} (env : Env V) (b : List Item) (st : St V)
    (hstr : b.all Item.isString = false) :
    processBatch env "text" b st =
      .ret 400 "Invalid text inputs, not all are strings" st := by
  simp [processBatch, hstr]

/-- A text batch of more than one item whose model call OOMs: reclaim, then
the item-by-item fallback, then continue with the next batch. -/
theorem processBatch_text_oom {V : Type} (env : Env V) (b : List Item) (st : St V)
    (hstr : b.all Item.isString = true) (hoom : env.oracle st.calls = .oom)
    (hlen : 1 < b.length) :
    processBatch env "text" b st =
      .next { acc := st.acc ++ textSurvivors env (st.calls + 1) b,
              calls := st.calls + 1 + b.length,
              trace := st.trace ++ [.procCall, .modelCall, .reclaim]
                        ++ fallbackTextTrace env (st.calls + 1) b } := by
  simp [processBatch, runInference, hstr, hoom, hlen, fallbackLoop_text,
    List.append_assoc, Nat.add_assoc]

/-- A single-item text batch whose model call OOMs: reclaim, then the OOM is
re-raised (line 202). -/
theorem processBatch_text_oom_single {V : Type} (env : Env V) (x : Item) (st : St V)
    (hx : x.isString = true) (hoom : env.oracle st.calls = .oom) :
    processBatch env "text" [x] st =
      .exc .runtimeOOM
        { acc := st.acc, calls := st.calls + 1,
          trace := st.trace ++ [.procCall, .modelCall, .reclaim] } := by
  simp [processBatch, runInference, hx, hoom]

/-- A text request of 2 to 4 valid strings (one planned batch) whose batch
model call OOMs: the endpoint reclaims, re-runs every item as a singleton,
keeps the surviving rows in order, and returns a success response. -/
theorem endpoint_text_oom {V : Type} (env : Env V) (inputs : List Item)
    (h2 : 2 ≤ inputs.length) (h4 : inputs.length ≤ 4)
    (hstr : inputs.all Item.isString = true) (hoom : env.oracle 0 = .oom) :
    generate_embeddings_endpoint env "text" inputs =
      (.success (textSurvivors env 1 inputs),
       .procCall :: .modelCall :: .reclaim ::
         (fallbackTextTrace env 1 inputs ++ [.reclaim])) := by
  have hne : inputs ≠ [] := by
    intro h
    rw [h] at h2
    simp at h2
  unfold generate_embeddings_endpoint
  rw [if_neg hne, show batch_size "text" = 4 from rfl,
    chunks_eq_single 4 inputs hne h4,
    loop_cons_of_next env "text" inputs [] _ _
      (processBatch_text_oom env inputs _ hstr hoom (by omega))]
  simp [loop]

/-- A single-item text request whose model call OOMs: the OOM escapes to the
outer handler (line 209), which reclaims and returns the generic 500. -/
theorem endpoint_text_single_oom {V : Type} (env : Env V) (x : Item)
    (hx : x.isString = true) (hoom : env.oracle 0 = .oom) :
    generate_embeddings_endpoint env "text" [x] =
      (.error 500 "Internal server error during embedding",
       [.procCall, .modelCall, .reclaim, .reclaim]) := by
  unfold generate_embeddings_endpoint
  rw [if_neg (by simp : ([x] : List Item) ≠ []),
    show batch_size "text" = 4 from rfl,
    chunks_eq_single 4 [x] (by simp) (by simp),
    loop_cons_of_exc env "text" [x] [] _ _ _
      (processBatch_text_oom_single env x _ hx hoom)]
  simp

/-- When the device never fails, a run reaching a batch with a non-string
item returns the 400 of line 153. -/
theorem loop_text_bad {V : Type} (env : Env V) (hok : ∀ n, env.oracle n = .ok) :
    ∀ (batches : List (List Item)) (st : St V),
      (∃ b ∈ batches, b.all Item.isString = false) →
      ∃ st', loop env "text" batches st =
        .ret 400 "Invalid text inputs, not all are strings" st' := by
  intro batches
  induction batches with
  | nil =>
    intro st h
    simp at h
  | cons b bs ih =>
    intro st h
    by_cases hb : b.all Item.isString = true
    · rw [loop_cons_of_next env "text" b bs st _
        (processBatch_text_ok env b st hb (hok st.calls))]
      apply ih
      rcases h with ⟨b', hb', hfalse⟩
      rcases List.mem_cons.mp hb' with rfl | hmem
      · rw [hb] at hfalse
        cases hfalse
      · exact ⟨b', hmem, hfalse⟩
    · have hb' : b.all Item.isString = false := by
        cases hx : b.all Item.isString
        · rfl
        · exact absurd hx hb
      exact ⟨st, loop_cons_of_ret env "text" b bs st st _ _
        (processBatch_text_bad env b st hb')⟩

/-- Claim C7: a text request containing at least one non-string item fails
the entire request with HTTP 400 (given a device that does not itself fail
first), no matter how many other items are valid strings. -/
theorem c7_nonstring_text {V : Type} (env : Env V) (inputs : List Item)
    (hok : ∀ n, env.oracle n = .ok)
    (hbad : ∃ it ∈ inputs, it.isString = false) :
    (generate_embeddings_endpoint env "text" inputs).1 =
      .error 400 "Invalid text inputs, not all are strings" := by
  have hne : inputs ≠ [] := by
    rcases hbad with ⟨it, hmem, _⟩
    exact List.ne_nil_of_mem hmem
  have hbatch : ∃ b ∈ chunks 4 inputs, b.all Item.isString = false := by
    rcases hbad with ⟨it, hmem, hfalse⟩
    have hmem' : it ∈ (chunks 4 inputs).flatten := by
      rw [chunks_flatten 4 (by omega) inputs]
      exact hmem
    rcases List.mem_flatten.mp hmem' with ⟨b, hb, hitb⟩
    refine ⟨b, hb, ?_⟩
    cases hx : b.all Item.isString
    · rfl
    · have := List.all_eq_true.mp hx it hitb
      simp [hfalse] at this
  rcases loop_text_bad env hok (chunks 4 inputs)
    { acc := [], calls := 0, trace := [] } hbatch with ⟨st', hloop⟩
  unfold generate_embeddings_endpoint
  rw [if_neg hne, show batch_size "text" = 4 from rfl, hloop]

/-- Witness for C7 at a concrete input. -/
theorem c7_nonstring_text_witness :
    (generate_embeddings_endpoint envOK "text" [Item.str "a", Item.nonStr]).1 =
      .error 400 "Invalid text inputs, not all are strings" :=
  c7_nonstring_text envOK [Item.str "a", Item.nonStr] (fun _ => rfl) (by decide)

/-! ### The out-of-memory claims -/

/-- When every model call OOMs, no singleton attempt survives. -/
theorem textSurvivors_oomAll {V : Type} (env : Env V)
    (h : ∀ n, env.oracle n = .oom) :
    ∀ (c : Nat) (items : List Item), textSurvivors env c items = [] := by
  intro c items
  induction items generalizing c with
  | nil => rfl
  | cons x xs ih => simp [textSurvivors, h c, ih]

/-- Claim C1: for any batch at any point of a run (arbitrary state `st`), a
multi-item text batch whose inference OOMs triggers a reclaim followed by an
item-by-item re-run — each successful singleton's rows are appended in
order, a failing singleton only drops that item, and the loop continues
(`.next`); a single-item batch whose OOM occurs re-raises instead
(`.exc .runtimeOOM`).  At request level: a one-batch request recovering this
way still returns a success response, while a single-item request's OOM
surfaces as a fatal 500. -/
theorem c1_oom_recovery {V : Type} (env : Env V) (b : List Item) (st : St V)
    (y : Item) (st' : St V) (inputs : List Item) (x : Item)
    (hstrB : b.all Item.isString = true) (hoomB : env.oracle st.calls = .oom)
    (hlenB : 1 < b.length)
    (hy : y.isString = true) (hoomS : env.oracle st'.calls = .oom)
    (h2 : 2 ≤ inputs.length) (h4 : inputs.length ≤ 4)
    (hstr : inputs.all Item.isString = true) (hx : x.isString = true)
    (hoom : env.oracle 0 = .oom) :
    processBatch env "text" b st =
      .next { acc := st.acc ++ textSurvivors env (st.calls + 1) b,
              calls := st.calls + 1 + b.length,
              trace := st.trace ++ [.procCall, .modelCall, .reclaim]
                        ++ fallbackTextTrace env (st.calls + 1) b }
    ∧ processBatch env "text" [y] st' =
        .exc .runtimeOOM
          { acc := st'.acc, calls := st'.calls + 1,
            trace := st'.trace ++ [.procCall, .modelCall, .reclaim] }
    ∧ generate_embeddings_endpoint env "text" inputs =
        (.success (textSurvivors env 1 inputs),
         .procCall :: .modelCall :: .reclaim ::
           (fallbackTextTrace env 1 inputs ++ [.reclaim]))
    ∧ (generate_embeddings_endpoint env "text" [x]).1 =
        .error 500 "Internal server error during embedding" :=
  ⟨processBatch_text_oom env b st hstrB hoomB hlenB,
   processBatch_text_oom_single env y st' hy hoomS,
   endpoint_text_oom env inputs h2 h4 hstr hoom,
   by rw [endpoint_text_single_oom env x hx hoom]⟩

/-- Witness for C1 at a concrete input. -/
theorem c1_oom_recovery_witness :
    processBatch envOOM2 "text" [Item.str "a", Item.str "bb"]
        { acc := [], calls := 0, trace := [] } =
      .next { acc := [] ++ textSurvivors envOOM2 (0 + 1) [Item.str "a", Item.str "bb"],
              calls := 0 + 1 + ([Item.str "a", Item.str "bb"] : List Item).length,
              trace := [] ++ [.procCall, .modelCall, .reclaim]
                        ++ fallbackTextTrace envOOM2 (0 + 1) [Item.str "a", Item.str "bb"] }
    ∧ processBatch envOOM2 "text" [Item.str "c"]
        { acc := [], calls := 0, trace := [] } =
        .exc .runtimeOOM
          { acc := [], calls := 0 + 1,
            trace := [] ++ [.procCall, .modelCall, .reclaim] }
    ∧ generate_embeddings_endpoint envOOM2 "text" [Item.str "a", Item.str "bb"] =
        (.success (textSurvivors envOOM2 1 [Item.str "a", Item.str "bb"]),
         .procCall :: .modelCall :: .reclaim ::
           (fallbackTextTrace envOOM2 1 [Item.str "a", Item.str "bb"] ++ [.reclaim]))
    ∧ (generate_embeddings_endpoint envOOM2 "text" [Item.str "c"]).1 =
        .error 500 "Internal server error during embedding" :=
  c1_oom_recovery envOOM2 [Item.str "a", Item.str "bb"]
    { acc := [], calls := 0, trace := [] } (Item.str "c")
    { acc := [], calls := 0, trace := [] } [Item.str "a", Item.str "bb"]
    (Item.str "c")
    (by decide) (by decide) (by decide) (by decide) (by decide)
    (by decide) (by decide) (by decide) (by decide) (by decide)

/-- Counterexample to claim C2 as stated: with `envOOM2` the device OOMs on
the batch call (oracle index 0) and again on the first singleton fallback
attempt (index 1).  The fallback OOM is swallowed by the `except Exception`
of line 198 — the item is dropped and the request still returns a success
response, not a 500. -/
theorem c2_fallback_oom_cex :
    (generate_embeddings_endpoint envOOM2 "text" [Item.str "a", Item.str "bb"]).1 =
      .success [2]
    ∧ (generate_embeddings_endpoint envOOM2 "text" [Item.str "a", Item.str "bb"]).1 ≠
        .error 500 "Internal server error during embedding" := by decide

/-- Claim C2 (amended): an OOM on an original single-item batch is fatal and
surfaces as the generic 500 error; an OOM during the item-by-item fallback
is swallowed like any other singleton failure — even when every fallback
attempt OOMs, the request still returns success with all items dropped. -/
theorem c2_singleton_oom {V : Type} (env : Env V) (b : List Item) (st : St V)
    (inputs : List Item) (x : Item)
    (hstrB : b.all Item.isString = true) (hoomB : env.oracle st.calls = .oom)
    (hlenB : 1 < b.length)
    (h2 : 2 ≤ inputs.length) (h4 : inputs.length ≤ 4)
    (hstr : inputs.all Item.isString = true) (hx : x.isString = true)
    (hoomAll : ∀ n, env.oracle n = .oom) :
    (∃ stN, processBatch env "text" b st = .next stN)
    ∧ (generate_embeddings_endpoint env "text" inputs).1 = .success []
    ∧ (generate_embeddings_endpoint env "text" [x]).1 =
        .error 500 "Internal server error during embedding" := by
  refine ⟨⟨_, processBatch_text_oom env b st hstrB hoomB hlenB⟩, ?_,
    by rw [endpoint_text_single_oom env x hx (hoomAll 0)]⟩
  rw [endpoint_text_oom env inputs h2 h4 hstr (hoomAll 0)]
  simp [textSurvivors_oomAll env hoomAll]

/-- Witness for the amended C2 at a concrete input. -/
theorem c2_singleton_oom_witness :
    (∃ stN, processBatch envOOMall "text" [Item.str "a", Item.str "bb"]
        { acc := [], calls := 0, trace := [] } = .next stN)
    ∧ (generate_embeddings_endpoint envOOMall "text" [Item.str "a", Item.str "bb"]).1 =
        .success []
    ∧ (generate_embeddings_endpoint envOOMall "text" [Item.str "c"]).1 =
        .error 500 "Internal server error during embedding" :=
  c2_singleton_oom envOOMall [Item.str "a", Item.str "bb"]
    { acc := [], calls := 0, trace := [] } [Item.str "a", Item.str "bb"]
    (Item.str "c")
    (by decide) (by decide) (by decide) (by decide) (by decide)
    (by decide) (by decide) (fun _ => rfl)

/-- Counterexample to claim C3 as stated: in the `envOOM2` run the first
singleton fallback attempt fails (its events are the `procCall, modelCall`
at positions 3-4) and the next item is processed immediately afterwards
(the `procCall` at position 5) with no reclaim in between; the whole run
contains only 3 reclaims (after the batch OOM, after the successful second
attempt, and the final cleanup), not the 4 the claim would require. -/
theorem c3_reclaim_cex :
    (generate_embeddings_endpoint envOOM2 "text" [Item.str "a", Item.str "bb"]).2 =
      [.procCall, .modelCall, .reclaim, .procCall, .modelCall,
       .procCall, .modelCall, .reclaim, .reclaim]
    ∧ (generate_embeddings_endpoint envOOM2 "text"
        [Item.str "a", Item.str "bb"]).2.count .reclaim = 3 := by decide

/-- Claim C3 (amended): during the item-by-item fallback, MemoryReclaimer
runs after an attempt only when that attempt succeeds (`fallbackTextTrace`
emits `[procCall, modelCall, reclaim]` for a successful attempt and only
`[procCall, modelCall]` for a failed one); a failed attempt is followed
directly by the next item. -/
theorem c3_reclaim_after_success_only {V : Type} (env : Env V) (inputs : List Item)
    (h2 : 2 ≤ inputs.length) (h4 : inputs.length ≤ 4)
    (hstr : inputs.all Item.isString = true) (hoom : env.oracle 0 = .oom) :
    (generate_embeddings_endpoint env "text" inputs).2 =
      .procCall :: .modelCall :: .reclaim ::
        (fallbackTextTrace env 1 inputs ++ [.reclaim]) := by
  rw [endpoint_text_oom env inputs h2 h4 hstr hoom]

/-- Witness for the amended C3 at a concrete input. -/
theorem c3_reclaim_after_success_only_witness :
    (generate_embeddings_endpoint envOOM2 "text" [Item.str "a", Item.str "bb"]).2 =
      .procCall :: .modelCall :: .reclaim ::
        (fallbackTextTrace envOOM2 1 [Item.str "a", Item.str "bb"] ++ [.reclaim]) :=
  c3_reclaim_after_success_only envOOM2 [Item.str "a", Item.str "bb"]
    (by decide) (by decide) (by decide) (by decide)

/-! ### Validation claims -/

/-- Claim C9: empty `inputs` short-circuits (lines 126-127) to an empty
embeddings list with an empty trace — no validation, no device work, no
reclaim — regardless of `input_type`. -/
theorem c9_empty_inputs {V : Type} (env : Env V) (input_type : String) :
    generate_embeddings_endpoint env input_type [] = (.success [], []) := rfl

/-- Counterexample to claim C8 as stated: with an unrecognized `input_type`
but empty `inputs`, the endpoint returns the empty success response of line
127 — the `input_type` check is never reached, so not every such request
yields a 400. -/
theorem c8_unknown_type_cex :
    generate_embeddings_endpoint envOK "bogus" [] = (.success [], [])
    ∧ (generate_embeddings_endpoint envOK "bogus" []).1 ≠
        .error 400 "Invalid input_type" := by decide

/-- Claim C8 (amended): for nonempty `inputs`, an unrecognized `input_type`
yields the 400 of line 156, and the (empty) trace contains no processor or
model call — no device work is done. -/
theorem c8_unknown_type {V : Type} (env : Env V) (input_type : String)
    (x : Item) (xs : List Item)
    (ht : input_type ≠ "text") (hi : input_type ≠ "image") :
    generate_embeddings_endpoint env input_type (x :: xs) =
      (.error 400 "Invalid input_type", [])
    ∧ (generate_embeddings_endpoint env input_type (x :: xs)).2.count .procCall = 0
    ∧ (generate_embeddings_endpoint env input_type (x :: xs)).2.count .modelCall = 0 := by
  have hmain : generate_embeddings_endpoint env input_type (x :: xs) =
      (.error 400 "Invalid input_type", []) := by
    unfold generate_embeddings_endpoint
    rw [if_neg (by simp : (x :: xs : List Item) ≠ [])]
    have hbs : batch_size input_type = 1 := by
      unfold batch_size
      rw [if_neg ht]
    have hpb : processBatch env input_type ((x :: xs).take 1)
        { acc := [], calls := 0, trace := [] } =
        .ret 400 "Invalid input_type" { acc := [], calls := 0, trace := [] } := by
      unfold processBatch
      rw [if_neg hi, if_neg ht]
    rw [hbs, chunks_cons, loop_cons_of_ret env input_type _ _ _ _ _ _ hpb]
  exact ⟨hmain, by simp [hmain], by simp [hmain]⟩

/-- Witness for the amended C8 at a concrete input. -/
theorem c8_unknown_type_witness :
    generate_embeddings_endpoint envOK "bogus" [Item.str "a"] =
      (.error 400 "Invalid input_type", [])
    ∧ (generate_embeddings_endpoint envOK "bogus" [Item.str "a"]).2.count .procCall = 0
    ∧ (generate_embeddings_endpoint envOK "bogus" [Item.str "a"]).2.count .modelCall = 0 :=
  c8_unknown_type envOK "bogus" (Item.str "a") [] (by decide) (by decide)

/-! ### Reclamation on terminal failures -/

/-- The inner inference step never produces an early `return` response. -/
theorem runInference_ne_ret {V : Type} (env : Env V) (ty : String)
    (b : List Item) (st st' : St V) (c : Nat) (m : String) :
    runInference env ty b st ≠ .ret c m st' := by
  intro hcontra
  unfold runInference at hcontra
  cases henv : env.oracle st.calls
  · simp [henv] at hcontra
  · simp only [henv] at hcontra
    split at hcontra <;> simp at hcontra
  · simp [henv] at hcontra

/-- Every early `return` of the batch loop is one of the two 400 validation
responses — never a 500. -/
theorem processBatch_ret_400 {V : Type} (env : Env V) (ty : String)
    (b : List Item) (st st' : St V) (c : Nat) (m : String)
    (h : processBatch env ty b st = .ret c m st') : c = 400 := by
  unfold processBatch at h
  by_cases himg : ty = "image"
  · rw [if_pos himg] at h
    cases hd : decodeList env b with
    | error e =>
      rw [hd] at h
      simp at h
    | ok u =>
      rw [hd] at h
      by_cases hb : b = []
      · rw [if_pos hb] at h
        simp at h
      · rw [if_neg hb] at h
        exact absurd h (runInference_ne_ret env ty b _ st' c m)
  · rw [if_neg himg] at h
    by_cases htxt : ty = "text"
    · rw [if_pos htxt] at h
      by_cases hall : b.all Item.isString
      · rw [if_pos hall] at h
        exact absurd h (runInference_ne_ret env ty b _ st' c m)
      · rw [if_neg hall] at h
        simp only [StepRes.ret.injEq] at h
        exact h.1.symm
    · rw [if_neg htxt] at h
      simp only [StepRes.ret.injEq] at h
      exact h.1.symm

/-- Lifting `processBatch_ret_400` through the batch loop. -/
theorem loop_ret_400 {V : Type} (env : Env V) (ty : String) :
    ∀ (batches : List (List Item)) (st st' : St V) (c : Nat) (m : String),
      loop env ty batches st = .ret c m st' → c = 400 := by
  intro batches
  induction batches with
  | nil =>
    intro st st' c m h
    simp [loop] at h
  | cons b bs ih =>
    intro st st' c m h
    cases hpb : processBatch env ty b st with
    | next st₁ =>
      rw [loop_cons_of_next env ty b bs st st₁ hpb] at h
      exact ih st₁ st' c m h
    | ret c₁ m₁ st₁ =>
      rw [loop_cons_of_ret env ty b bs st st₁ c₁ m₁ hpb] at h
      have h400 := processBatch_ret_400 env ty b st st₁ c₁ m₁ hpb
      simp only [LoopRes.ret.injEq] at h
      obtain ⟨h1, -, -⟩ := h
      omega
    | exc e st₁ =>
      rw [loop_cons_of_exc env ty b bs st st₁ e hpb] at h
      simp at h

/-- Counterexample to claim C4 as stated: two requests ending in terminal
`BadInput` failures (unrecognized `input_type`, and a non-string text item)
return their 400 responses with zero reclaim invocations in the whole run —
the 400 returns of lines 153, 156 and 208 perform no cleanup. -/
theorem c4_badinput_no_reclaim_cex :
    (generate_embeddings_endpoint envOK "bogus" [Item.str "a"]).2.count .reclaim = 0
    ∧ (generate_embeddings_endpoint envOK "text" [Item.nonStr]).2.count .reclaim = 0
    ∧ (generate_embeddings_endpoint envOK "bogus" [Item.str "a"]).1 =
        .error 400 "Invalid input_type"
    ∧ (generate_embeddings_endpoint envOK "text" [Item.nonStr]).1 =
        .error 400 "Invalid text inputs, not all are strings" := by decide

/-- Claim C4 (amended): only the terminal failures that surface through the
generic exception handler of lines 209-212 — fatal `ResourceExhausted` and
`Internal`, i.e. exactly the 500 responses — run MemoryReclaimer before the
error response is returned (the trace ends with a reclaim); the `BadInput`
400 paths return without any cleanup. -/
theorem c4_reclaim_on_500 {V : Type} (env : Env V) (input_type : String)
    (inputs : List Item) (m : String)
    (h : (generate_embeddings_endpoint env input_type inputs).1 = .error 500 m) :
    ∃ t, (generate_embeddings_endpoint env input_type inputs).2 =
      t ++ [.reclaim] := by
  unfold generate_embeddings_endpoint at h ⊢
  by_cases hne : inputs = []
  · rw [if_pos hne] at h
    simp at h
  · rw [if_neg hne] at h ⊢
    cases hL : loop env input_type (chunks (batch_size input_type) inputs)
        { acc := [], calls := 0, trace := [] } with
    | done st =>
      rw [hL] at h
      simp at h
    | ret c m' st =>
      rw [hL] at h
      have h400 := loop_ret_400 env input_type _ _ _ _ _ hL
      simp only [Response.error.injEq] at h
      obtain ⟨h1, -⟩ := h
      omega
    | exc e st =>
      rw [hL] at h
      cases e with
      | valueError m'' => simp at h
      | runtimeOOM => exact ⟨st.trace, rfl⟩
      | runtimeOther => exact ⟨st.trace, rfl⟩
      | otherExc => exact ⟨st.trace, rfl⟩

/-- Witness for the amended C4 at a concrete input: a single-item text batch
that OOMs ends in a 500 and the trace ends with the cleanup reclaim. -/
theorem c4_reclaim_on_500_witness :
    ∃ t, (generate_embeddings_endpoint envOOMall "text" [Item.str "a"]).2 =
      t ++ [Event.reclaim] :=
  c4_reclaim_on_500 envOOMall "text" [Item.str "a"]
    "Internal server error during embedding" (by decide)

/-! ### The image path -/

/-- An image batch with an undecodable item: the exception from line 148
propagates out of the batch loop. -/
theorem processBatch_image_exc {V : Type} (env : Env V) (b : List Item)
    (st : St V) (e : PyErr) (hd : decodeList env b = .error e) :
    processBatch env "image" b st = .exc e st := by
  simp [processBatch, hd]

/-- A singleton image batch that decodes and infers successfully. -/
theorem processBatch_image_ok_single {V : Type} (env : Env V) (x : Item)
    (st : St V) (hd : _decode_image env x = .ok ())
    (hok : env.oracle st.calls = .ok) :
    processBatch env "image" [x] st =
      .next { acc := st.acc ++ [env.emb x], calls := st.calls + 1,
              trace := st.trace ++ [.procCall, .modelCall, .reclaim] } := by
  simp [processBatch, decodeList, hd, runInference, hok]

/-- With a benign device, an image run reaching an undecodable item aborts
with that item's exception, whatever came before. -/
theorem loop_image_exc {V : Type} (env : Env V) (pre : List Item) :
    ∀ (bad : Item) (post : List Item) (st : St V) (e : PyErr),
      (∀ n, env.oracle n = .ok) →
      (∀ it ∈ pre, _decode_image env it = .ok ()) →
      _decode_image env bad = .error e →
      ∃ st', loop env "image" ((pre ++ bad :: post).map (fun x => [x])) st =
        .exc e st' := by
  induction pre with
  | nil =>
    intro bad post st e hok hpre hbad
    refine ⟨st, ?_⟩
    simp only [List.nil_append, List.map_cons]
    exact loop_cons_of_exc env "image" [bad] _ st st e
      (processBatch_image_exc env [bad] st e (by simp [decodeList, hbad]))
  | cons p ps ih =>
    intro bad post st e hok hpre hbad
    simp only [List.cons_append, List.map_cons]
    rw [loop_cons_of_next env "image" [p] _ st _
      (processBatch_image_ok_single env p st (hpre p (by simp)) (hok st.calls))]
    exact ih bad post _ e hok (fun it hmem => hpre it (by simp [hmem])) hbad

/-- Counterexample to claim C5 as stated: the item `"ok1"` decodes fine and
on its own yields a success response, but pairing it with a malformed data
URI makes the WHOLE request fail with a 400 — the decode failure is not
confined to the offending item, and the other item's vector is discarded. -/
theorem c5_decode_failure_cex :
    (generate_embeddings_endpoint envOK "image"
        [Item.str "ok1", Item.str "data:nocomma"]).1 =
      .error 400 "Input processing error: Malformed data URI string for image decoding."
    ∧ (generate_embeddings_endpoint envOK "image" [Item.str "ok1"]).1 =
        .success [3] := by decide

/-- Claim C5 (amended): an image input that fails to decode — a data URI
lacking the comma separator, a base64 decoding failure, or bytes that do not
form a valid raster image — raises `ValueError`, which the endpoint maps to
a BadInput 400; but the failure aborts the WHOLE request through the outer
handler of lines 206-208, discarding every other item's result, rather than
affecting only the offending item. -/
theorem c5_decode_failure {V : Type} (env : Env V) (pre post : List Item)
    (bad : Item) (m : String)
    (hok : ∀ n, env.oracle n = .ok)
    (hpre : ∀ it ∈ pre, _decode_image env it = .ok ())
    (hbad : _decode_image env bad = .error (.valueError m)) :
    (generate_embeddings_endpoint env "image" (pre ++ bad :: post)).1 =
      .error 400 ("Input processing error: " ++ m)
    ∧ (∀ s : String, startsWithData s = true → hasComma s = false →
        _decode_image env (.str s) =
          .error (.valueError "Malformed data URI string for image decoding."))
    ∧ (∀ s : String, startsWithData s = false → env.b64ok s = false →
        _decode_image env (.str s) =
          .error (.valueError "Failed to decode base64 image: invalid base64"))
    ∧ (∀ s : String, startsWithData s = false → env.b64ok s = true →
        env.imgOk s = false →
        _decode_image env (.str s) =
          .error (.valueError "Failed to decode base64 image: cannot identify image file")) := by
  refine ⟨?_, ?_, ?_, ?_⟩
  · rcases loop_image_exc env pre bad post
      { acc := [], calls := 0, trace := [] } (.valueError m) hok hpre hbad
      with ⟨st', hloop⟩
    unfold generate_embeddings_endpoint
    rw [if_neg (by simp : (pre ++ bad :: post : List Item) ≠ []),
      show batch_size "image" = 1 from rfl, chunks_one, hloop]
  · intro s h1 h2
    simp [_decode_image, h1, h2]
  · intro s h1 h2
    simp [_decode_image, h1, h2]
  · intro s h1 h2 h3
    simp [_decode_image, h1, h2, h3]

/-- Witness for the amended C5 at a concrete input. -/
theorem c5_decode_failure_witness :
    (generate_embeddings_endpoint envOK "image"
        [Item.str "ok1", Item.str "data:nocomma", Item.str "zz"]).1 =
      .error 400 ("Input processing error: " ++
        "Malformed data URI string for image decoding.") :=
  (c5_decode_failure envOK [Item.str "ok1"] [Item.str "zz"]
    (Item.str "data:nocomma") "Malformed data URI string for image decoding."
    (fun _ => rfl)
    (by
      intro it hmem
      rw [List.mem_singleton] at hmem
      subst hmem
      rfl)
    rfl).1

/-! ### Order preservation -/

/-- The item-by-item fallback appends, in order, the rows of a sublist of
the batch (the surviving items). -/
theorem fallbackLoop_sublist {V : Type} (env : Env V) (ty : String)
    (items : List Item) :
    ∀ st : St V, ∃ sel : List Item, sel.Sublist items ∧
      (fallbackLoop env ty items st).acc = st.acc ++ sel.map env.emb := by
  induction items with
  | nil =>
    intro st
    exact ⟨[], List.nil_sublist [], by simp [fallbackLoop]⟩
  | cons x xs ih =>
    intro st
    cases hdec : (if ty = "image" then _decode_image env x else Except.ok ()) with
    | error e =>
      obtain ⟨sel, hsub, hacc⟩ := ih st
      exact ⟨sel, hsub.cons x, by simp only [fallbackLoop, hdec, hacc]⟩
    | ok u =>
      cases h : env.oracle st.calls with
      | ok =>
        obtain ⟨sel, hsub, hacc⟩ := ih
          { acc := (st.acc ++ [env.emb x]), calls := st.calls + 1,
            trace := (st.trace ++ [.procCall, .modelCall]) ++ [.reclaim] }
        refine ⟨x :: sel, hsub.cons₂ x, ?_⟩
        simp only [fallbackLoop, hdec, h]
        rw [hacc]
        simp [List.append_assoc]
      | oom =>
        obtain ⟨sel, hsub, hacc⟩ := ih
          { acc := st.acc, calls := st.calls + 1,
            trace := st.trace ++ [.procCall, .modelCall] }
        refine ⟨sel, hsub.cons x, ?_⟩
        simp only [fallbackLoop, hdec, h]
        rw [hacc]
      | err =>
        obtain ⟨sel, hsub, hacc⟩ := ih
          { acc := st.acc, calls := st.calls + 1,
            trace := st.trace ++ [.procCall, .modelCall] }
        refine ⟨sel, hsub.cons x, ?_⟩
        simp only [fallbackLoop, hdec, h]
        rw [hacc]

/-- A batch inference that lets the loop continue appends, in order, the
rows of a sublist of the batch. -/
theorem runInference_next_sublist {V : Type} (env : Env V) (ty : String)
    (b : List Item) (st st' : St V)
    (h : runInference env ty b st = .next st') :
    ∃ sel : List Item, sel.Sublist b ∧ st'.acc = st.acc ++ sel.map env.emb := by
  unfold runInference at h
  cases henv : env.oracle st.calls
  · simp only [henv] at h
    injection h with h'
    subst h'
    exact ⟨b, List.Sublist.refl b, by simp⟩
  · simp only [henv] at h
    split at h
    · injection h with h'
      subst h'
      obtain ⟨sel, hsub, hacc⟩ := fallbackLoop_sublist env ty b
        { acc := st.acc, calls := st.calls + 1,
          trace := (st.trace ++ [.modelCall]) ++ [.reclaim] }
      exact ⟨sel, hsub, hacc⟩
    · simp at h
  · simp only [henv] at h
    simp at h

/-- One batch-loop step that continues appends, in order, the rows of a
sublist of the batch. -/
theorem processBatch_next_sublist {V : Type} (env : Env V) (ty : String)
    (b : List Item) (st st' : St V)
    (h : processBatch env ty b st = .next st') :
    ∃ sel : List Item, sel.Sublist b ∧ st'.acc = st.acc ++ sel.map env.emb := by
  unfold processBatch at h
  by_cases himg : ty = "image"
  · rw [if_pos himg] at h
    cases hd : decodeList env b with
    | error e =>
      rw [hd] at h
      simp at h
    | ok u =>
      rw [hd] at h
      by_cases hb : b = []
      · rw [if_pos hb] at h
        injection h with h'
        subst h'
        exact ⟨[], List.nil_sublist b, by simp⟩
      · rw [if_neg hb] at h
        exact runInference_next_sublist env ty b
          { st with trace := st.trace ++ [Event.procCall] } st' h
  · rw [if_neg himg] at h
    by_cases htxt : ty = "text"
    · rw [if_pos htxt] at h
      by_cases hall : b.all Item.isString
      · rw [if_pos hall] at h
        exact runInference_next_sublist env ty b
          { st with trace := st.trace ++ [Event.procCall] } st' h
      · rw [if_neg hall] at h
        simp at h
    · rw [if_neg htxt] at h
      simp at h

/-- A completed run's accumulator is, in order, the rows of a sublist of all
batched items. -/
theorem loop_done_sublist {V : Type} (env : Env V) (ty : String) :
    ∀ (batches : List (List Item)) (st st' : St V),
      loop env ty batches st = .done st' →
      ∃ sel : List Item, sel.Sublist batches.flatten ∧
        st'.acc = st.acc ++ sel.map env.emb := by
  intro batches
  induction batches with
  | nil =>
    intro st st' h
    simp only [loop] at h
    injection h with h'
    subst h'
    exact ⟨[], by simp, by simp⟩
  | cons b bs ih =>
    intro st st' h
    cases hpb : processBatch env ty b st with
    | next st₁ =>
      rw [loop_cons_of_next env ty b bs st st₁ hpb] at h
      obtain ⟨sel₁, hsub₁, hacc₁⟩ := processBatch_next_sublist env ty b st st₁ hpb
      obtain ⟨sel₂, hsub₂, hacc₂⟩ := ih st₁ st' h
      refine ⟨sel₁ ++ sel₂, ?_, ?_⟩
      · rw [List.flatten_cons]
        exact hsub₁.append hsub₂
      · rw [hacc₂, hacc₁]
        simp [List.append_assoc]
    | ret c m st₁ =>
      rw [loop_cons_of_ret env ty b bs st st₁ c m hpb] at h
      simp at h
    | exc e st₁ =>
      rw [loop_cons_of_exc env ty b bs st st₁ e hpb] at h
      simp at h

/-- Claim C10: every success response's embeddings list is exactly the rows,
in order, of a sublist of the request's inputs — results are appended batch
by batch and item by item in original order, dropped items only shorten the
list, and no reordering or interleaving across batches ever occurs. -/
theorem c10_order_preserved {V : Type} (env : Env V) (input_type : String)
    (inputs : List Item) (vs : List V)
    (h : (generate_embeddings_endpoint env input_type inputs).1 = .success vs) :
    ∃ sel : List Item, sel.Sublist inputs ∧ vs = sel.map env.emb := by
  unfold generate_embeddings_endpoint at h
  by_cases hne : inputs = []
  · rw [if_pos hne] at h
    simp only [Response.success.injEq] at h
    exact ⟨[], by simp [hne], by simp [← h]⟩
  · rw [if_neg hne] at h
    cases hL : loop env input_type (chunks (batch_size input_type) inputs)
        { acc := [], calls := 0, trace := [] } with
    | done st =>
      rw [hL] at h
      simp only [Response.success.injEq] at h
      obtain ⟨sel, hsub, hacc⟩ := loop_done_sublist env input_type _ _ st hL
      have hbs : 0 < batch_size input_type := by
        unfold batch_size
        split <;> omega
      rw [chunks_flatten (batch_size input_type) hbs inputs] at hsub
      refine ⟨sel, hsub, ?_⟩
      rw [← h, hacc]
      simp
    | ret c m st =>
      rw [hL] at h
      simp at h
    | exc e st =>
      rw [hL] at h
      cases e <;> simp at h

/-- Witness for C10 at a concrete input. -/
theorem c10_order_preserved_witness :
    ∃ sel : List Item, sel.Sublist [Item.str "a", Item.str "bb"] ∧
      [1, 2] = sel.map envOK.emb :=
  c10_order_preserved envOK "text" [Item.str "a", Item.str "bb"] [1, 2] (by decide)

end Colpali
